import Mathlib

/-!
Verification development for the descent-trajectory / RTA-matching engine of the
4D_Optimization repository (files `bada_dis_time.py` and `A320.py`).

The aerodynamic performance oracle (pyBADA) is abstracted as a function
`perf : ℤ → Option ℚ → Point` mapping a flight level and an optional forced CAS
to the sampled point data (CAS, TAS, altitude-to-distance ratio, fuel flow),
standing for `calculate_performance_at_altitude` with a fixed speed schedule.
All other logic — the speed-schedule resolver, the deceleration-segment model,
the profile integrator with its cumulative totals, the ETA window and the
RTA search — is embedded directly from the Python source over ℚ.

Python `round(x, d)` (round-half-to-even at `d` decimal digits) is embedded as
`pround d`.  Python division, which raises `ZeroDivisionError` on a zero
denominator, is embedded as the fallible `qdiv` wherever the source does not
guard the denominator itself.
-/

/-- Round half to even to an integer, as Python's builtin `round` does. -/
def rhe (x : ℚ) : ℤ :=
  if x - ⌊x⌋ < 1/2 then ⌊x⌋
  else if 1/2 < x - ⌊x⌋ then ⌊x⌋ + 1
  else if Even ⌊x⌋ then ⌊x⌋ else ⌊x⌋ + 1

/-- Python `round(x, d)`: round half to even at `d` decimal digits. -/
def pround (d : ℕ) (x : ℚ) : ℚ := (rhe (x * 10 ^ d) : ℚ) / 10 ^ d

lemma rhe_ge_floor (x : ℚ) : ⌊x⌋ ≤ rhe x := by
  unfold rhe; split_ifs <;> omega

lemma rhe_le_floor_add_one (x : ℚ) : rhe x ≤ ⌊x⌋ + 1 := by
  unfold rhe; split_ifs <;> omega

lemma rhe_mono {x y : ℚ} (h : x ≤ y) : rhe x ≤ rhe y := by
  have hf : ⌊x⌋ ≤ ⌊y⌋ := Int.floor_mono h
  rcases lt_or_eq_of_le hf with hlt | heq
  · calc rhe x ≤ ⌊x⌋ + 1 := rhe_le_floor_add_one x
    _ ≤ ⌊y⌋ := by omega
    _ ≤ rhe y := rhe_ge_floor y
  · have hfr : x - ⌊x⌋ ≤ y - ⌊y⌋ := by
      rw [← heq]; exact sub_le_sub_right h _
    unfold rhe
    rw [← heq]
    split_ifs with h1 h2 h3 h4 h5 h6 h7 h8 <;> try omega
    all_goals (exfalso; linarith)

lemma pround_mono (d : ℕ) {x y : ℚ} (h : x ≤ y) : pround d x ≤ pround d y := by
  unfold pround
  have hp : (0:ℚ) < 10 ^ d := by positivity
  have hr : rhe (x * 10 ^ d) ≤ rhe (y * 10 ^ d) :=
    rhe_mono (mul_le_mul_of_nonneg_right h (le_of_lt hp))
  exact (div_le_div_iff_of_pos_right hp).mpr (Int.cast_le.mpr hr)

/-- The flight-evolution tag returned by the resolver and passed to the
oracle's energy-share-factor model (`"constM"` / `"constCAS"` in the source). -/
inductive FlightEvolution
  | constM
  | constCAS
deriving DecidableEq

/-- The essential output of `determine_speed_profile` (bada_dis_time.py lines
25-53): the Mach number when Mach is held, the flight-evolution tag, and the
target CAS when a CAS is held.  The descriptive string label is omitted. -/
structure SpeedTarget where
  M : Option ℚ
  flightEvolution : FlightEvolution
  targetCas : Option ℚ
deriving DecidableEq

/-- Embedding of `determine_speed_profile` (bada_dis_time.py lines 25-53).
Branches, in source order:
`if constant_cas is None and flight_level >= crossover_fl` → hold Mach;
`elif low_cas_fl is not None and flight_level >= low_cas_fl` → hold high CAS;
`elif low_cas_fl is not None and low_cas is not None` → hold low CAS;
`else` → hold high CAS. -/
def determine_speed_profile (flightLevel crossoverFl : ℤ) (descentMach highCas : ℚ)
    (lowCas : Option ℚ) (lowCasFl : Option ℤ) (constantCas : Option ℚ) : SpeedTarget :=
  if constantCas = none ∧ crossoverFl ≤ flightLevel then
    ⟨some descentMach, FlightEvolution.constM, none⟩
  else
    match lowCasFl, lowCas with
    | some lfl, some lc =>
        if lfl ≤ flightLevel then ⟨none, FlightEvolution.constCAS, some highCas⟩
        else ⟨none, FlightEvolution.constCAS, some lc⟩
    | some lfl, none =>
        if lfl ≤ flightLevel then ⟨none, FlightEvolution.constCAS, some highCas⟩
        else ⟨none, FlightEvolution.constCAS, some highCas⟩
    | none, _ => ⟨none, FlightEvolution.constCAS, some highCas⟩

/-- One sampled point of the descent, as produced by
`calculate_performance_at_altitude` for a given flight level: the fields of the
returned dict that the integrator and the deceleration injector read.
`ftPerNm` is the `Alt-Dist Ratio(ft/nm)` column and `ff` the `Fuel Flow(kg/s)`
column (both already carry the sampler's rounding). -/
structure Point where
  cas : ℚ
  tas : ℚ
  ftPerNm : ℚ
  ff : ℚ
deriving DecidableEq

/-- A row of the final profile table: flight level, sampled data, the
deceleration-point flag, and the three cumulative columns, which the source
stores rounded (`round(cum_distance, 1)`, `round(cum_time, 0)`,
`round(cum_fuel, 1)`). -/
structure ResPoint where
  fl : ℤ
  pdata : Point
  isDecel : Bool
  cumDist : ℚ
  cumTime : ℚ
  cumFuel : ℚ
deriving DecidableEq

/-- The trigger type of a deceleration segment (`'Statutory Deceleration'`,
`'Profile Deceleration'`, `'Approach Deceleration'` in the source). -/
inductive DecelType
  | statutory
  | profile
  | approach
deriving DecidableEq

/-- One recorded deceleration segment (the dict built at bada_dis_time.py
lines 355-364). -/
structure DecelSegment where
  dtype : DecelType
  fl : ℤ
  casBefore : ℚ
  casAfter : ℚ
  dist : ℚ
  time : ℚ
  fuel : ℚ
  tas : ℚ
deriving DecidableEq

/-- Embedding of `calculate_deceleration_segment` (bada_dis_time.py lines
199-219): returns (distance nm, time s, fuel kg). -/
def calculate_deceleration_segment (currentCas targetCas fuelFlowKgPerSec : ℚ) :
    ℚ × ℚ × ℚ :=
  if currentCas ≤ targetCas then (0, 0, 0)
  else ((currentCas - targetCas) / 10, currentCas - targetCas,
        fuelFlowKgPerSec * (currentCas - targetCas))

/-- The per-pair integration step of the profile integrator (bada_dis_time.py
lines 283-304): segment distance, time and fuel between the previously appended
point and the current one, with the source's zero guards. -/
def segmentIncrements (prevFl : ℤ) (prev : Point) (fl : ℤ) (cur : Point) :
    ℚ × ℚ × ℚ :=
  let altitudeDiff : ℚ := ((prevFl - fl : ℤ) : ℚ) * 100
  let avgAltDist := (prev.ftPerNm + cur.ftPerNm) / 2
  let segmentDistance := if 0 < avgAltDist then altitudeDiff / avgAltDist else 0
  let avgTasNmPerSec := ((prev.tas + cur.tas) / 2) / 3600
  let segmentTime := if 0 < avgTasNmPerSec then segmentDistance / avgTasNmPerSec else 0
  let avgFuelFlow := (prev.ff + cur.ff) / 2
  (segmentDistance, segmentTime, avgFuelFlow * segmentTime)

/-- The profile-deceleration trigger condition
(`is_low_cas_fl and low_cas is not None and CAS > low_cas`). -/
def profileTrigger (fl : ℤ) (cas : ℚ) (lowCas : Option ℚ) (lowCasFl : Option ℤ) :
    Option ℚ :=
  match lowCasFl, lowCas with
  | some lfl, some lc => if fl = lfl ∧ lc < cas then some lc else none
  | _, _ => none

/-- The deceleration trigger chain of bada_dis_time.py lines 319-343, in source
order: FL100 statutory (250 kt), then the user-defined profile trigger, then
the FL30 approach limit (220 kt).  Returns the target CAS (which the source
also installs as `current_cas_limit`) and the trigger type. -/
def decelDecision (fl : ℤ) (cas : ℚ) (lowCas : Option ℚ) (lowCasFl : Option ℤ) :
    Option (ℚ × DecelType) :=
  if fl = 100 ∧ 250 < cas then some (250, DecelType.statutory)
  else
    match profileTrigger fl cas lowCas lowCasFl with
    | some lc => some (lc, DecelType.profile)
    | none => if fl = 30 ∧ 220 < cas then some (220, DecelType.approach) else none

/-- The deceleration-segment record built at bada_dis_time.py lines 350-364
from the pre-deceleration point and the target CAS. -/
def mkDecelSegment (fl : ℤ) (pt : Point) (targetCas : ℚ) (ty : DecelType) :
    DecelSegment :=
  let d := calculate_deceleration_segment pt.cas targetCas pt.ff
  ⟨ty, fl, pt.cas, targetCas, d.1, d.2.1, d.2.2, pt.tas⟩

lemma decelDecision_target_lt {fl : ℤ} {cas : ℚ} {lowCas : Option ℚ}
    {lowCasFl : Option ℤ} {td : ℚ × DecelType}
    (h : decelDecision fl cas lowCas lowCasFl = some td) : td.1 < cas := by
  unfold decelDecision at h
  by_cases h1 : fl = 100 ∧ 250 < cas
  · rw [if_pos h1] at h
    cases h; exact h1.2
  · rw [if_neg h1] at h
    cases hpt : profileTrigger fl cas lowCas lowCasFl with
    | some lc =>
        rw [hpt] at h
        cases h
        unfold profileTrigger at hpt
        rcases lowCasFl with _ | lfl
        · cases hpt
        · rcases lowCas with _ | lc0
          · cases hpt
          · dsimp only at hpt
            split_ifs at hpt with h2
            cases hpt
            exact h2.2
    | none =>
        rw [hpt] at h
        split_ifs at h with h3
        cases h
        exact h3.2

lemma mkDecelSegment_fields (fl : ℤ) (pt : Point) (t : ℚ) (ty : DecelType)
    (h : t < pt.cas) :
    (mkDecelSegment fl pt t ty).dist = (pt.cas - t) / 10 ∧
    (mkDecelSegment fl pt t ty).time = pt.cas - t ∧
    (mkDecelSegment fl pt t ty).fuel = pt.ff * (pt.cas - t) := by
  unfold mkDecelSegment calculate_deceleration_segment
  rw [if_neg (not_le.mpr h)]
  exact ⟨rfl, rfl, rfl⟩

/-- Elements of Python `range(c, t-1, -10)`: `n` values descending from `c` in
steps of 10. -/
def rangeDownAux : ℤ → ℕ → List ℤ
  | _, 0 => []
  | c, n + 1 => c :: rangeDownAux (c - 10) n

/-- Python `range(cruise_fl, target_fl - 1, -10)`: the values
`c, c - 10, c - 20, ...` that are `≥ t`. -/
def rangeDown (c t : ℤ) : List ℤ :=
  if t ≤ c then rangeDownAux c ((c - t).toNat / 10 + 1) else []

/-- Embedding of `generate_flight_levels` (bada_dis_time.py lines 175-182):
the `range(cruise_fl, target_fl-1, -10)` list, with `target_fl` appended when
it is not already present. -/
def generate_flight_levels (cruiseFl targetFl : ℤ) : List ℤ :=
  let l := rangeDown cruiseFl targetFl
  if targetFl ∈ l then l else l ++ [targetFl]

/-- The mutable loop state of `calculate_detailed_descent_with_deceleration`:
the running (unrounded) cumulative totals, the active CAS ceiling
(`current_cas_limit`) and the last appended point (`result_points[-1]`). -/
structure LoopState where
  cumDist : ℚ
  cumTime : ℚ
  cumFuel : ℚ
  limit : Option ℚ
  prev : Option (ℤ × Point)
deriving DecidableEq

/-- State after sampling a flight level: when a previous point exists
(`i > 0`), the pair increments of `segmentIncrements` are added to the running
totals; the new point becomes `result_points[-1]`. -/
def afterPointState (st : LoopState) (fl : ℤ) (pt : Point) : LoopState :=
  match st.prev with
  | none => ⟨st.cumDist, st.cumTime, st.cumFuel, st.limit, some (fl, pt)⟩
  | some pp =>
      let inc := segmentIncrements pp.1 pp.2 fl pt
      ⟨st.cumDist + inc.1, st.cumTime + inc.2.1, st.cumFuel + inc.2.2,
       st.limit, some (fl, pt)⟩

/-- A row appended to `result_points`, with the cumulative columns stored
rounded exactly as the source does. -/
def mkResPoint (fl : ℤ) (pt : Point) (isDecel : Bool) (st : LoopState) : ResPoint :=
  ⟨fl, pt, isDecel, pround 1 st.cumDist, pround 0 st.cumTime, pround 1 st.cumFuel⟩

/-- State after inserting a deceleration segment: its distance/time/fuel are
added to the running totals, the CAS ceiling becomes the segment's target CAS,
and the re-sampled post-deceleration point becomes `result_points[-1]`. -/
def afterDecelState (st : LoopState) (fl : ℤ) (seg : DecelSegment) (pt2 : Point) :
    LoopState :=
  ⟨st.cumDist + seg.dist, st.cumTime + seg.time, st.cumFuel + seg.fuel,
   some seg.casAfter, some (fl, pt2)⟩

/-- The per-flight-level loop of `calculate_detailed_descent_with_deceleration`
(bada_dis_time.py lines 269-388), over an abstract sampler
`perf : flight level → forced CAS → Point`.  Returns the appended
`result_points` and `decel_segments` in order. -/
def descentLoop (perf : ℤ → Option ℚ → Point) (lowCas : Option ℚ)
    (lowCasFl : Option ℤ) : List ℤ → LoopState → List ResPoint × List DecelSegment
  | [], _ => ([], [])
  | fl :: rest, st =>
      let pt := perf fl st.limit
      let st1 := afterPointState st fl pt
      let rp := mkResPoint fl pt false st1
      match decelDecision fl pt.cas lowCas lowCasFl with
      | none =>
          let res := descentLoop perf lowCas lowCasFl rest st1
          (rp :: res.1, res.2)
      | some td =>
          let seg := mkDecelSegment fl pt td.1 td.2
          let pt2 := perf fl (some td.1)
          let st2 := afterDecelState st1 fl seg pt2
          let rp2 := mkResPoint fl pt2 true st2
          let res := descentLoop perf lowCas lowCasFl rest st2
          (rp :: rp2 :: res.1, seg :: res.2)

/-- Embedding of `calculate_detailed_descent_with_deceleration`
(bada_dis_time.py lines 222-410) over the abstract sampler: defaults `low_cas`
to `high_cas` when unset, generates the flight levels and runs the loop from
zero cumulative totals (`constant_cas` is `None` throughout
`calculate_descent_profile` and is not modelled). -/
def calculate_detailed_descent_with_deceleration (perf : ℤ → Option ℚ → Point)
    (cruiseFl targetFl : ℤ) (highCas : ℚ) (lowCas : Option ℚ)
    (lowCasFl : Option ℤ) : List ResPoint × List DecelSegment :=
  let lc := lowCas.getD highCas
  descentLoop perf (some lc) lowCasFl (generate_flight_levels cruiseFl targetFl)
    ⟨0, 0, 0, none, none⟩

/-- Embedding of the entry point `calculate_descent_profile` (bada_dis_time.py
lines 512-572): passes `intermediate_cas`/`intermediate_fl` through as
`low_cas`/`low_cas_fl`. -/
def calculate_descent_profile (perf : ℤ → Option ℚ → Point)
    (cruiseFl targetFl : ℤ) (highCas : ℚ) (intermediateCas : Option ℚ)
    (intermediateFl : Option ℤ) : List ResPoint × List DecelSegment :=
  calculate_detailed_descent_with_deceleration perf cruiseFl targetFl highCas
    intermediateCas intermediateFl

/-- The summary totals of one full descent (bada_dis_time.py lines 394-404):
the last row's cumulative columns, re-rounded. -/
structure DescentSummary where
  dist : ℚ
  time : ℚ
  fuel : ℚ
deriving DecidableEq

/-- Summary extraction from the point table (`df.iloc[-1]` of the cumulative
columns, rounded as in the source's summary dict). -/
def descentSummary (pts : List ResPoint) : DescentSummary :=
  let last := pts.getLastD ⟨0, ⟨0, 0, 0, 0⟩, false, 0, 0, 0⟩
  ⟨pround 1 last.cumDist, pround 0 last.cumTime, pround 1 last.cumFuel⟩

/-- Pointwise ordering of the three cumulative columns. -/
def cumLE (p q : ResPoint) : Prop :=
  p.cumDist ≤ q.cumDist ∧ p.cumTime ≤ q.cumTime ∧ p.cumFuel ≤ q.cumFuel

instance : DecidableRel cumLE := fun p q =>
  inferInstanceAs (Decidable (p.cumDist ≤ q.cumDist ∧ p.cumTime ≤ q.cumTime ∧
    p.cumFuel ≤ q.cumFuel))

/-- The sampler guarantees used by the integrator: TAS, altitude-to-distance
ratio and fuel flow of every sampled point are non-negative (in the source the
ratio is an absolute value guarded by `ms2kt(tas) > 0`, and TAS and fuel flow
come from the performance model). -/
def perfNonneg (perf : ℤ → Option ℚ → Point) : Prop :=
  ∀ (fl : ℤ) (fc : Option ℚ),
    0 ≤ (perf fl fc).tas ∧ 0 ≤ (perf fl fc).ftPerNm ∧ 0 ≤ (perf fl fc).ff

lemma segmentIncrements_nonneg {prevFl fl : ℤ} {prev cur : Point}
    (hfl : fl ≤ prevFl) (h1 : 0 ≤ prev.tas) (h2 : 0 ≤ cur.tas)
    (h3 : 0 ≤ prev.ftPerNm) (h4 : 0 ≤ cur.ftPerNm)
    (h5 : 0 ≤ prev.ff) (h6 : 0 ≤ cur.ff) :
    0 ≤ (segmentIncrements prevFl prev fl cur).1 ∧
    0 ≤ (segmentIncrements prevFl prev fl cur).2.1 ∧
    0 ≤ (segmentIncrements prevFl prev fl cur).2.2 := by
  unfold segmentIncrements
  dsimp only
  have hAlt : (0:ℚ) ≤ ((prevFl - fl : ℤ) : ℚ) * 100 := by
    have : (0:ℤ) ≤ prevFl - fl := by omega
    have h0 : (0:ℚ) ≤ ((prevFl - fl : ℤ) : ℚ) := by exact_mod_cast this
    linarith
  have hd : 0 ≤ (if 0 < (prev.ftPerNm + cur.ftPerNm) / 2 then
      ((prevFl - fl : ℤ) : ℚ) * 100 / ((prev.ftPerNm + cur.ftPerNm) / 2) else 0) := by
    split_ifs with h
    · exact div_nonneg hAlt (le_of_lt h)
    · exact le_refl 0
  have ht : 0 ≤ (if 0 < (prev.tas + cur.tas) / 2 / 3600 then
      (if 0 < (prev.ftPerNm + cur.ftPerNm) / 2 then
        ((prevFl - fl : ℤ) : ℚ) * 100 / ((prev.ftPerNm + cur.ftPerNm) / 2) else 0) /
        ((prev.tas + cur.tas) / 2 / 3600) else 0) := by
    by_cases h : 0 < (prev.tas + cur.tas) / 2 / 3600
    · rw [if_pos h]
      exact div_nonneg hd (le_of_lt h)
    · rw [if_neg h]
  refine ⟨hd, ?_, ?_⟩
  · exact ht
  · exact mul_nonneg (by linarith) ht

lemma afterPointState_prev (st : LoopState) (fl : ℤ) (pt : Point) :
    (afterPointState st fl pt).prev = some (fl, pt) := by
  unfold afterPointState
  cases st.prev <;> rfl

lemma afterPointState_limit (st : LoopState) (fl : ℤ) (pt : Point) :
    (afterPointState st fl pt).limit = st.limit := by
  unfold afterPointState
  cases st.prev <;> rfl

lemma afterPointState_cums_mono (st : LoopState) (fl : ℤ) (pt : Point)
    (hprev : ∀ pp : ℤ × Point, st.prev = some pp →
      fl ≤ pp.1 ∧ 0 ≤ pp.2.tas ∧ 0 ≤ pp.2.ftPerNm ∧ 0 ≤ pp.2.ff)
    (h2 : 0 ≤ pt.tas) (h4 : 0 ≤ pt.ftPerNm) (h6 : 0 ≤ pt.ff) :
    st.cumDist ≤ (afterPointState st fl pt).cumDist ∧
    st.cumTime ≤ (afterPointState st fl pt).cumTime ∧
    st.cumFuel ≤ (afterPointState st fl pt).cumFuel := by
  unfold afterPointState
  cases hp : st.prev with
  | none => exact ⟨le_refl _, le_refl _, le_refl _⟩
  | some pp =>
      obtain ⟨hfl, ha, hb, hc⟩ := hprev pp hp
      obtain ⟨i1, i2, i3⟩ := segmentIncrements_nonneg hfl ha h2 hb h4 hc h6
      exact ⟨by dsimp only; linarith, by dsimp only; linarith, by dsimp only; linarith⟩

lemma afterDecelState_cums_mono (st : LoopState) (fl : ℤ) (pt : Point) (pt2 : Point)
    (td : ℚ × DecelType) (hlt : td.1 < pt.cas) (hff : 0 ≤ pt.ff) :
    st.cumDist ≤ (afterDecelState st fl (mkDecelSegment fl pt td.1 td.2) pt2).cumDist ∧
    st.cumTime ≤ (afterDecelState st fl (mkDecelSegment fl pt td.1 td.2) pt2).cumTime ∧
    st.cumFuel ≤ (afterDecelState st fl (mkDecelSegment fl pt td.1 td.2) pt2).cumFuel := by
  obtain ⟨hd, ht, hf⟩ := mkDecelSegment_fields fl pt td.1 td.2 hlt
  unfold afterDecelState
  have hmul : (0:ℚ) ≤ pt.ff * (pt.cas - td.1) := mul_nonneg hff (by linarith)
  refine ⟨?_, ?_, ?_⟩
  · dsimp only; rw [hd]; linarith
  · dsimp only; rw [ht]; linarith
  · dsimp only; rw [hf]; linarith

lemma descentLoop_mono (perf : ℤ → Option ℚ → Point) (hPerf : perfNonneg perf)
    (lowCas : Option ℚ) (lowCasFl : Option ℤ) :
    ∀ (fls : List ℤ) (st : LoopState),
      List.Chain' (fun a b => b < a) fls →
      (∀ pp : ℤ × Point, st.prev = some pp →
        (∀ b ∈ fls.head?, b ≤ pp.1) ∧ 0 ≤ pp.2.tas ∧ 0 ≤ pp.2.ftPerNm ∧ 0 ≤ pp.2.ff) →
      List.Chain' cumLE (descentLoop perf lowCas lowCasFl fls st).1 ∧
      (∀ p ∈ (descentLoop perf lowCas lowCasFl fls st).1.head?,
        pround 1 st.cumDist ≤ p.cumDist ∧ pround 0 st.cumTime ≤ p.cumTime ∧
        pround 1 st.cumFuel ≤ p.cumFuel) := by
  intro fls
  induction fls with
  | nil =>
      intro st _ _
      refine ⟨by simp [descentLoop], ?_⟩
      intro p hp
      simp [descentLoop] at hp
  | cons fl rest ih =>
      intro st hchain hprev
      obtain ⟨hhead, hchain2⟩ := List.chain'_cons'.mp hchain
      obtain ⟨hptas, hpratio, hpff⟩ := hPerf fl st.limit
      have hst1cum := afterPointState_cums_mono st fl (perf fl st.limit)
        (fun pp hp => by
          obtain ⟨hb, hrest⟩ := hprev pp hp
          exact ⟨hb fl rfl, hrest⟩) hptas hpratio hpff
      have hst1prev := afterPointState_prev st fl (perf fl st.limit)
      simp only [descentLoop]
      cases hD : decelDecision fl (perf fl st.limit).cas lowCas lowCasFl with
      | none =>
          have hprev1 : ∀ pp : ℤ × Point,
              (afterPointState st fl (perf fl st.limit)).prev = some pp →
              (∀ b ∈ rest.head?, b ≤ pp.1) ∧ 0 ≤ pp.2.tas ∧ 0 ≤ pp.2.ftPerNm ∧
                0 ≤ pp.2.ff := by
            intro pp hp
            rw [hst1prev] at hp
            cases hp
            refine ⟨fun b hb => le_of_lt (hhead b hb), hPerf fl st.limit⟩
          obtain ⟨ihChain, ihHead⟩ := ih (afterPointState st fl (perf fl st.limit))
            hchain2 hprev1
          constructor
          · refine List.chain'_cons'.mpr ⟨?_, ihChain⟩
            intro q hq
            obtain ⟨q1, q2, q3⟩ := ihHead q hq
            exact ⟨q1, q2, q3⟩
          · intro p hp
            simp only [List.head?_cons, Option.mem_def, Option.some.injEq] at hp
            subst hp
            exact ⟨pround_mono 1 hst1cum.1, pround_mono 0 hst1cum.2.1,
              pround_mono 1 hst1cum.2.2⟩
      | some td =>
          have hlt : td.1 < (perf fl st.limit).cas := decelDecision_target_lt hD
          have hst2cum := afterDecelState_cums_mono
            (afterPointState st fl (perf fl st.limit)) fl (perf fl st.limit)
            (perf fl (some td.1)) td hlt hpff
          have hprev2 : ∀ pp : ℤ × Point,
              (afterDecelState (afterPointState st fl (perf fl st.limit)) fl
                (mkDecelSegment fl (perf fl st.limit) td.1 td.2)
                (perf fl (some td.1))).prev = some pp →
              (∀ b ∈ rest.head?, b ≤ pp.1) ∧ 0 ≤ pp.2.tas ∧ 0 ≤ pp.2.ftPerNm ∧
                0 ≤ pp.2.ff := by
            intro pp hp
            cases hp
            refine ⟨fun b hb => le_of_lt (hhead b hb), hPerf fl (some td.1)⟩
          obtain ⟨ihChain, ihHead⟩ := ih (afterDecelState
            (afterPointState st fl (perf fl st.limit)) fl
            (mkDecelSegment fl (perf fl st.limit) td.1 td.2) (perf fl (some td.1)))
            hchain2 hprev2
          constructor
          · refine List.chain'_cons'.mpr ⟨?_, List.chain'_cons'.mpr ⟨?_, ihChain⟩⟩
            · intro q hq
              simp only [List.head?_cons, Option.mem_def, Option.some.injEq] at hq
              subst hq
              exact ⟨pround_mono 1 hst2cum.1, pround_mono 0 hst2cum.2.1,
                pround_mono 1 hst2cum.2.2⟩
            · intro q hq
              exact ihHead q hq
          · intro p hp
            simp only [List.head?_cons, Option.mem_def, Option.some.injEq] at hp
            subst hp
            exact ⟨pround_mono 1 hst1cum.1, pround_mono 0 hst1cum.2.1,
              pround_mono 1 hst1cum.2.2⟩

lemma rangeDownAux_mem {n : ℕ} {c x : ℤ} (h : x ∈ rangeDownAux c n) :
    ∃ i : ℕ, i < n ∧ x = c - 10 * i := by
  induction n generalizing c with
  | zero => cases h
  | succ n ih =>
      rw [rangeDownAux] at h
      rcases List.mem_cons.mp h with h1 | h1
      · exact ⟨0, Nat.succ_pos n, by omega⟩
      · obtain ⟨i, hi, hx⟩ := ih h1
        exact ⟨i + 1, by omega, by push_cast at hx ⊢; omega⟩

lemma rangeDownAux_chain (n : ℕ) : ∀ c : ℤ,
    List.Chain' (fun a b => b < a) (rangeDownAux c n) := by
  induction n with
  | zero => intro c; rw [rangeDownAux]; exact List.chain'_nil
  | succ n ih =>
      intro c
      rw [rangeDownAux]
      refine List.chain'_cons'.mpr ⟨?_, ih (c - 10)⟩
      intro b hb
      obtain ⟨i, hi, hx⟩ := rangeDownAux_mem (List.mem_of_mem_head? hb)
      omega

lemma rangeDown_mem {c t x : ℤ} (h : x ∈ rangeDown c t) : t ≤ x ∧ x ≤ c := by
  unfold rangeDown at h
  split_ifs at h with hct
  · obtain ⟨i, hi, hx⟩ := rangeDownAux_mem h
    constructor
    · have h10 : 10 * ((c - t).toNat / 10) ≤ (c - t).toNat := Nat.mul_div_le _ 10 |>.trans_eq rfl
      omega
    · omega
  · cases h

lemma rangeDown_chain (c t : ℤ) :
    List.Chain' (fun a b => b < a) (rangeDown c t) := by
  unfold rangeDown
  split_ifs
  · exact rangeDownAux_chain _ c
  · exact List.chain'_nil

lemma generate_flight_levels_chain (c t : ℤ) :
    List.Chain' (fun a b => b < a) (generate_flight_levels c t) := by
  unfold generate_flight_levels
  dsimp only
  split_ifs with hmem
  · exact rangeDown_chain c t
  · rw [List.chain'_append]
    refine ⟨rangeDown_chain c t, List.chain'_singleton t, ?_⟩
    intro x hx y hy
    simp only [List.head?_cons, Option.mem_def, Option.some.injEq] at hy
    subst hy
    have hxmem : x ∈ rangeDown c t := List.mem_of_mem_getLast? hx
    have hb := rangeDown_mem hxmem
    rcases lt_or_eq_of_le hb.1 with h1 | h1
    · exact h1
    · exact absurd (h1 ▸ hxmem) hmem

/-- C5: For every speed-schedule configuration accepted by
`calculate_descent_profile`, and any sampler whose TAS, altitude-distance ratio
and fuel flow are non-negative, the three cumulative columns of the returned
point sequence are non-decreasing from each point to the next, including
across inserted deceleration points. -/
theorem c5_cumulative_totals_monotone (perf : ℤ → Option ℚ → Point)
    (hPerf : perfNonneg perf) (cruiseFl targetFl : ℤ) (highCas : ℚ)
    (intermediateCas : Option ℚ) (intermediateFl : Option ℤ) :
    List.Chain' cumLE
      (calculate_descent_profile perf cruiseFl targetFl highCas intermediateCas
        intermediateFl).1 := by
  unfold calculate_descent_profile calculate_detailed_descent_with_deceleration
  exact (descentLoop_mono perf hPerf _ _ (generate_flight_levels cruiseFl targetFl)
    ⟨0, 0, 0, none, none⟩ (generate_flight_levels_chain cruiseFl targetFl)
    (fun pp hp => nomatch hp)).1

/-- A concrete sampler for witnesses: honours a forced CAS, otherwise flies
CAS 300, with TAS 400 kt, ratio 300 ft/nm and fuel flow 0.5 kg/s. -/
def c5perf : ℤ → Option ℚ → Point := fun _ fc => ⟨fc.getD 300, 400, 300, 1/2⟩

theorem c5_witness :
    List.Chain' cumLE (calculate_descent_profile c5perf 50 30 310 none none).1 :=
  c5_cumulative_totals_monotone c5perf
    (fun fl fc => ⟨by norm_num [c5perf], by norm_num [c5perf], by norm_num [c5perf]⟩)
    50 30 310 none none

lemma descentLoop_segs_fl_sublist (perf : ℤ → Option ℚ → Point)
    (lowCas : Option ℚ) (lowCasFl : Option ℤ) :
    ∀ (fls : List ℤ) (st : LoopState),
      ((descentLoop perf lowCas lowCasFl fls st).2.map (fun s => s.fl)).Sublist fls := by
  intro fls
  induction fls with
  | nil => intro st; simp [descentLoop]
  | cons fl rest ih =>
      intro st
      simp only [descentLoop]
      cases hD : decelDecision fl (perf fl st.limit).cas lowCas lowCasFl with
      | none => exact List.Sublist.cons fl (ih _)
      | some td =>
          simp only [List.map_cons]
          exact List.Sublist.cons₂ fl (ih _)

/-- C9: For every run with a configured intermediate trigger level equal to
100, the returned deceleration-segment log contains at most one segment at
FL100; the regulatory and profile triggers are never both applied at the same
flight level of the same run. -/
theorem c9_at_most_one_decel_at_fl100 (perf : ℤ → Option ℚ → Point)
    (cruiseFl targetFl : ℤ) (highCas : ℚ) (intermediateCas : Option ℚ) :
    (((calculate_descent_profile perf cruiseFl targetFl highCas intermediateCas
        (some 100)).2).map (fun s => s.fl)).count 100 ≤ 1 := by
  unfold calculate_descent_profile calculate_detailed_descent_with_deceleration
  have hsub := descentLoop_segs_fl_sublist perf
    (some (intermediateCas.getD highCas)) (some 100)
    (generate_flight_levels cruiseFl targetFl) ⟨0, 0, 0, none, none⟩
  have hchain := generate_flight_levels_chain cruiseFl targetFl
  have hpair : List.Pairwise (fun a b : ℤ => b < a)
      (generate_flight_levels cruiseFl targetFl) :=
    List.chain'_iff_pairwise.mp hchain
  have hpair2 := hpair.sublist hsub
  have hnd := hpair2.imp (fun h => (ne_of_lt h).symm)
  exact List.nodup_iff_count_le_one.mp hnd 100

/-- C3: Every inserted deceleration (triggered only when the sampled CAS
exceeds the trigger's target CAS, as the second conjunct states for the
trigger chain) is recorded with distance = (CAS_before − CAS_after)/10,
time = CAS_before − CAS_after (one second per knot), and
fuel = fuel flow of the pre-deceleration point × time. -/
theorem c3_deceleration_cost_model :
    (∀ (fl : ℤ) (pt : Point) (t : ℚ) (ty : DecelType), t < pt.cas →
      (mkDecelSegment fl pt t ty).dist =
        ((mkDecelSegment fl pt t ty).casBefore - (mkDecelSegment fl pt t ty).casAfter) / 10 ∧
      (mkDecelSegment fl pt t ty).time =
        (mkDecelSegment fl pt t ty).casBefore - (mkDecelSegment fl pt t ty).casAfter ∧
      (mkDecelSegment fl pt t ty).fuel = pt.ff * (mkDecelSegment fl pt t ty).time) ∧
    (∀ (fl : ℤ) (cas : ℚ) (lowCas : Option ℚ) (lowCasFl : Option ℤ)
        (td : ℚ × DecelType),
      decelDecision fl cas lowCas lowCasFl = some td → td.1 < cas) := by
  constructor
  · intro fl pt t ty h
    obtain ⟨hd, ht, hf⟩ := mkDecelSegment_fields fl pt t ty h
    have hb : (mkDecelSegment fl pt t ty).casBefore = pt.cas := rfl
    have ha : (mkDecelSegment fl pt t ty).casAfter = t := rfl
    rw [hb, ha, hd, ht, hf]
    exact ⟨rfl, rfl, rfl⟩
  · intro fl cas lowCas lowCasFl td h
    exact decelDecision_target_lt h

theorem c3_witness :
    (250:ℚ) < (⟨280, 400, 300, 1/2⟩ : Point).cas ∧
    (mkDecelSegment 100 ⟨280, 400, 300, 1/2⟩ 250 DecelType.statutory).dist = 3 ∧
    (mkDecelSegment 100 ⟨280, 400, 300, 1/2⟩ 250 DecelType.statutory).time = 30 ∧
    (mkDecelSegment 100 ⟨280, 400, 300, 1/2⟩ 250 DecelType.statutory).fuel = 15 := by
  have h := c3_deceleration_cost_model.1 100 ⟨280, 400, 300, 1/2⟩ 250
    DecelType.statutory (by norm_num)
  refine ⟨by norm_num, h.1.trans ?_, h.2.1.trans ?_, h.2.2.trans ?_⟩ <;>
    norm_num [mkDecelSegment, calculate_deceleration_segment]

/-- C4: For an adjacent pair of sampled points, the integration step computes
segment distance = altitude difference (ft) over the mean altitude-distance
ratio, segment time = segment distance over the mean TAS in nm/s, and segment
fuel = mean fuel flow times segment time; a zero mean ratio or zero mean TAS
yields a zero-distance, zero-time segment instead of an error.  The
hypotheses record the sampler's guarantees: TAS and ratio are non-negative
and the ratio is zeroed whenever TAS is zero (bada_dis_time.py line 150). -/
theorem c4_integration_step (prevFl fl : ℤ) (p q : Point)
    (h1 : 0 ≤ p.tas) (h2 : 0 ≤ q.tas) (h3 : 0 ≤ p.ftPerNm) (h4 : 0 ≤ q.ftPerNm)
    (h5 : p.tas = 0 → p.ftPerNm = 0) (h6 : q.tas = 0 → q.ftPerNm = 0) :
    (0 < (p.ftPerNm + q.ftPerNm) / 2 →
      (segmentIncrements prevFl p fl q).1 =
        ((prevFl - fl : ℤ) : ℚ) * 100 / ((p.ftPerNm + q.ftPerNm) / 2)) ∧
    (0 < (p.tas + q.tas) / 2 / 3600 →
      (segmentIncrements prevFl p fl q).2.1 =
        (segmentIncrements prevFl p fl q).1 / ((p.tas + q.tas) / 2 / 3600)) ∧
    (segmentIncrements prevFl p fl q).2.2 =
      (p.ff + q.ff) / 2 * (segmentIncrements prevFl p fl q).2.1 ∧
    ((p.ftPerNm + q.ftPerNm) / 2 = 0 ∨ (p.tas + q.tas) / 2 = 0 →
      (segmentIncrements prevFl p fl q).1 = 0 ∧
      (segmentIncrements prevFl p fl q).2.1 = 0) := by
  unfold segmentIncrements
  dsimp only
  refine ⟨?_, ?_, rfl, ?_⟩
  · intro h
    rw [if_pos h]
  · intro h
    rw [if_pos h]
  · intro h
    have hR0 : (p.ftPerNm + q.ftPerNm) / 2 = 0 := by
      rcases h with h | h
      · exact h
      · have hp0 : p.tas = 0 := by linarith
        have hq0 : q.tas = 0 := by linarith
        rw [h5 hp0, h6 hq0]
        norm_num
    have hd0 : (if 0 < (p.ftPerNm + q.ftPerNm) / 2 then
        ((prevFl - fl : ℤ) : ℚ) * 100 / ((p.ftPerNm + q.ftPerNm) / 2) else 0) = 0 := by
      rw [if_neg]
      rw [hR0]
      exact lt_irrefl 0
    refine ⟨hd0, ?_⟩
    rw [hd0]
    split_ifs with ht
    · exact zero_div _
    · rfl

theorem c4_witness :
    (segmentIncrements 50 ⟨280, 360, 100, 1/2⟩ 40 ⟨280, 360, 100, 1/2⟩).1 = 10 ∧
    (segmentIncrements 50 ⟨280, 360, 100, 1/2⟩ 40 ⟨280, 360, 100, 1/2⟩).2.1 = 100 ∧
    (segmentIncrements 50 ⟨280, 360, 100, 1/2⟩ 40 ⟨280, 360, 100, 1/2⟩).2.2 = 50 := by
  have h := c4_integration_step 50 40 ⟨280, 360, 100, 1/2⟩ ⟨280, 360, 100, 1/2⟩
    (by norm_num) (by norm_num) (by norm_num) (by norm_num)
    (by intro hz; norm_num at hz) (by intro hz; norm_num at hz)
  have e1 : (segmentIncrements 50 ⟨280, 360, 100, 1/2⟩ 40 ⟨280, 360, 100, 1/2⟩).1 = 10 :=
    (h.1 (by norm_num)).trans (by norm_num)
  have e2 : (segmentIncrements 50 ⟨280, 360, 100, 1/2⟩ 40 ⟨280, 360, 100, 1/2⟩).2.1 = 100 := by
    rw [h.2.1 (by norm_num), e1]
    norm_num
  have e3 : (segmentIncrements 50 ⟨280, 360, 100, 1/2⟩ 40 ⟨280, 360, 100, 1/2⟩).2.2 = 50 := by
    rw [h.2.2.1, e2]
    norm_num
  exact ⟨e1, e2, e3⟩

/-- C1 counterexample: with an intermediate CAS configured (220 kt at FL100),
`constant_cas` unset, and FL300 at or above the crossover FL290, the resolver
selects the Mach-hold branch — not the high-CAS hold that the claim's priority
order (branch (b)) prescribes — because the source guards branch (a) with
`constant_cas is None`, not with the absence of an intermediate CAS. -/
theorem c1_counterexample :
    determine_speed_profile 300 290 (78/100) 280 (some 220) (some 100) none =
      ⟨some (78/100), FlightEvolution.constM, none⟩ ∧
    determine_speed_profile 300 290 (78/100) 280 (some 220) (some 100) none ≠
      ⟨none, FlightEvolution.constCAS, some 280⟩ := by
  constructor <;> simp [determine_speed_profile]

/-- C1 amended: the resolver's priority order, with branch (a) guarded by the
absence of a constant-CAS override (not of an intermediate CAS): (a) if
`constant_cas` is unset and FL ≥ crossover → hold Mach, even when an
intermediate CAS is configured; (b) else if a trigger level is configured and
FL ≥ trigger → hold the high CAS; (c) else if trigger and intermediate CAS are
configured (FL below trigger) → hold the intermediate CAS; (d) otherwise hold
the high CAS. -/
theorem c1_amended (fl x : ℤ) (m hc : ℚ) (lc : Option ℚ) (lfl : Option ℤ)
    (cc : Option ℚ) :
    (cc = none → x ≤ fl →
      determine_speed_profile fl x m hc lc lfl cc =
        ⟨some m, FlightEvolution.constM, none⟩) ∧
    (¬(cc = none ∧ x ≤ fl) → ∀ t, lfl = some t → t ≤ fl →
      determine_speed_profile fl x m hc lc lfl cc =
        ⟨none, FlightEvolution.constCAS, some hc⟩) ∧
    (¬(cc = none ∧ x ≤ fl) → ∀ t c, lfl = some t → fl < t → lc = some c →
      determine_speed_profile fl x m hc lc lfl cc =
        ⟨none, FlightEvolution.constCAS, some c⟩) ∧
    (¬(cc = none ∧ x ≤ fl) →
      (lfl = none ∨ (∃ t, lfl = some t ∧ fl < t) ∧ lc = none) →
      determine_speed_profile fl x m hc lc lfl cc =
        ⟨none, FlightEvolution.constCAS, some hc⟩) := by
  refine ⟨?_, ?_, ?_, ?_⟩
  · intro hcc hx
    unfold determine_speed_profile
    rw [if_pos ⟨hcc, hx⟩]
  · intro hn t hlfl hle
    unfold determine_speed_profile
    rw [if_neg hn]
    subst hlfl
    rcases lc with _ | c <;> dsimp only <;> rw [if_pos hle]
  · intro hn t c hlfl hlt hlc
    unfold determine_speed_profile
    rw [if_neg hn]
    subst hlfl
    subst hlc
    dsimp only
    rw [if_neg (not_le.mpr hlt)]
  · intro hn hcase
    unfold determine_speed_profile
    rw [if_neg hn]
    rcases hcase with hnone | ⟨⟨t, hlfl, hlt⟩, hlc⟩
    · subst hnone
      rcases lc with _ | c <;> rfl
    · subst hlfl
      subst hlc
      dsimp only
      rw [if_neg (not_le.mpr hlt)]

theorem c1_witness :
    determine_speed_profile 300 290 (78/100) 280 none none none =
      ⟨some (78/100), FlightEvolution.constM, none⟩ :=
  (c1_amended 300 290 (78/100) 280 none none none).1 rfl (by norm_num)

/-- The sampler used in the C2 counterexample run: honours a forced CAS and
otherwise flies CAS 280 (above both the 250 kt regulatory limit and the 230 kt
configured intermediate CAS). -/
def c2perf : ℤ → Option ℚ → Point := fun _ fc => ⟨fc.getD 280, 400, 300, 1/2⟩

/-- C2 counterexample: a run with intermediate trigger level 100 and
intermediate CAS 230, whose sampled FL100 CAS is 280, so both the regulatory
condition (280 > 250) and the profile condition (280 > 230) hold; the single
deceleration segment inserted at FL100 targets 250 kt (the regulatory value),
not the configured intermediate CAS 230, refuting the claimed precedence. -/
theorem c2_counterexample :
    ((calculate_detailed_descent_with_deceleration c2perf 120 90 310 (some 230)
        (some 100)).2.map (fun s => (s.fl, s.casBefore, s.casAfter))) =
      [(100, 280, 250)] ∧ (250:ℚ) < 280 ∧ (230:ℚ) < 280 := by
  refine ⟨?_, by norm_num, by norm_num⟩
  norm_num [calculate_detailed_descent_with_deceleration, generate_flight_levels,
    rangeDown, rangeDownAux, descentLoop, afterPointState, mkResPoint,
    afterDecelState, decelDecision, profileTrigger, mkDecelSegment,
    calculate_deceleration_segment, segmentIncrements, c2perf, pround, rhe,
    Int.even_iff]

/-- C2 amended: when the configured intermediate trigger level equals 100 and,
at the sampled FL100 point, both the regulatory condition (CAS > 250) and the
profile condition (CAS > intermediate CAS) hold, the injector applies the
regulatory deceleration: the trigger chain checks `fl == 100 and CAS > 250`
first, so the inserted segment targets 250 kt, not the intermediate CAS. -/
theorem c2_amended (cas lc : ℚ) (hreg : 250 < cas) (hprof : lc < cas) :
    decelDecision 100 cas (some lc) (some 100) = some (250, DecelType.statutory) := by
  unfold decelDecision
  rw [if_pos ⟨rfl, hreg⟩]

theorem c2_witness :
    decelDecision 100 280 (some 230) (some 100) = some (250, DecelType.statutory) :=
  c2_amended 280 230 (by norm_num) (by norm_num)

/-- Python division: raises `ZeroDivisionError` when the denominator is zero,
modelled as `none`. -/
def qdiv (a b : ℚ) : Option ℚ := if b = 0 then none else some (a / b)

/-- One side (fast or slow) of the ETA window computed by
`calculate_eta_window` (A320.py lines 43-65): cruise distance/time, descent
distance/time and the total trip time. -/
structure EtaSideResult where
  cruiseDistanceNm : ℚ
  cruiseTimeSeconds : ℚ
  descentDistanceNm : ℚ
  descentTimeSeconds : ℚ
  totalTimeSeconds : ℚ
deriving DecidableEq

instance : Inhabited EtaSideResult := ⟨⟨0, 0, 0, 0, 0⟩⟩

/-- One side of the ETA window from a descent summary and a raw cruise TAS:
`gs = round(tas, 1)`, `cruise_distance = route - descent_distance`,
`cruise_time = round(cruise_distance / gs * 3600, 1)`,
`eta = round(cruise_time + descent_time, 1)` (A320.py lines 43-65).  The
cruise-distance division is Python division on the unguarded ground speed,
hence the `qdiv`. -/
def etaSide (summaryDist summaryTime gsRaw routeLen : ℚ) : Option EtaSideResult :=
  (qdiv (routeLen - summaryDist) (pround 1 gsRaw)).map fun q =>
    ⟨routeLen - summaryDist, pround 1 (q * 3600), summaryDist,
     pround 1 summaryTime,
     pround 1 (pround 1 (q * 3600) + pround 1 summaryTime)⟩

/-- Embedding of `calculate_eta_window` (A320.py lines 4-149): runs the
canonical fast profile (Mach 0.80 / CAS 310, no intermediate step) and the
canonical slow profile (Mach 0.73 / CAS 245, intermediate 220 kt at FL150)
through the descent engine, then assembles each trip with a cruise leg.
`perfFast` / `perfSlow` are the samplers for the two schedules and
`mach2tasKt` stands for `Utility.mach2tas_kt` at the origin flight level. -/
def calculate_eta_window (perfFast perfSlow : ℤ → Option ℚ → Point)
    (mach2tasKt : ℚ → ℚ) (originFl targetFl : ℤ) (routeLen : ℚ) :
    Option (EtaSideResult × EtaSideResult) :=
  match etaSide
      (descentSummary (calculate_descent_profile perfFast originFl targetFl
        310 none none).1).dist
      (descentSummary (calculate_descent_profile perfFast originFl targetFl
        310 none none).1).time
      (mach2tasKt (4/5)) routeLen,
    etaSide
      (descentSummary (calculate_descent_profile perfSlow originFl targetFl
        245 (some 220) (some 150)).1).dist
      (descentSummary (calculate_descent_profile perfSlow originFl targetFl
        245 (some 220) (some 150)).1).time
      (mach2tasKt (73/100)) routeLen with
  | some a, some b => some (a, b)
  | _, _ => none

lemma qdiv_eq_some {a b : ℚ} (h : b ≠ 0) : qdiv a b = some (a / b) := by
  unfold qdiv
  rw [if_neg h]

lemma etaSide_eq_of_gs_ne {summaryDist summaryTime gsRaw routeLen : ℚ}
    (h : pround 1 gsRaw ≠ 0) :
    etaSide summaryDist summaryTime gsRaw routeLen =
      some ⟨routeLen - summaryDist,
        pround 1 ((routeLen - summaryDist) / pround 1 gsRaw * 3600),
        summaryDist, pround 1 summaryTime,
        pround 1 (pround 1 ((routeLen - summaryDist) / pround 1 gsRaw * 3600) +
          pround 1 summaryTime)⟩ := by
  unfold etaSide
  rw [qdiv_eq_some h]
  rfl

/-- C8 amended: none of the three configuration faults is surfaced as an
error.  In particular, whenever the two rounded cruise ground speeds are
nonzero, `calculate_eta_window` returns a normal result in which the fast
side's cruise distance is exactly route length minus descent distance — a
silently negative value whenever the descent distance exceeds the route
length (and the cruise time is then negative as well); no check of
intermediate CAS against high CAS or of the target flight level against the
cruise flight level exists anywhere on the path. -/
theorem c8_amended (perfFast perfSlow : ℤ → Option ℚ → Point)
    (mach2tasKt : ℚ → ℚ) (originFl targetFl : ℤ) (routeLen : ℚ)
    (hgsF : pround 1 (mach2tasKt (4/5)) ≠ 0)
    (hgsS : pround 1 (mach2tasKt (73/100)) ≠ 0) :
    ∃ r : EtaSideResult × EtaSideResult,
      calculate_eta_window perfFast perfSlow mach2tasKt originFl targetFl
        routeLen = some r ∧
      r.1.cruiseDistanceNm = routeLen - (descentSummary
        (calculate_descent_profile perfFast originFl targetFl 310 none none).1).dist ∧
      (routeLen < (descentSummary
          (calculate_descent_profile perfFast originFl targetFl 310 none
            none).1).dist →
        r.1.cruiseDistanceNm < 0) := by
  unfold calculate_eta_window
  rw [etaSide_eq_of_gs_ne hgsF, etaSide_eq_of_gs_ne hgsS]
  refine ⟨_, rfl, rfl, ?_⟩
  intro hlt
  dsimp only
  linarith

theorem c8_witness :
    ∃ r : EtaSideResult × EtaSideResult,
      calculate_eta_window c5perf c5perf (fun _ => 450) 50 30 200 = some r ∧
      r.1.cruiseDistanceNm = 200 - (descentSummary
        (calculate_descent_profile c5perf 50 30 310 none none).1).dist ∧
      (200 < (descentSummary
          (calculate_descent_profile c5perf 50 30 310 none none).1).dist →
        r.1.cruiseDistanceNm < 0) :=
  c8_amended c5perf c5perf (fun _ => 450) 50 30 200
    (by norm_num [pround, rhe, Int.even_iff])
    (by norm_num [pround, rhe, Int.even_iff])

/-- The sampler used in the C8 counterexample run: a shallow 10 ft/nm
altitude-distance ratio so that the descent consumes far more ground distance
than the 100 nm route. -/
def c8perf : ℤ → Option ℚ → Point := fun _ fc => ⟨fc.getD 300, 400, 10, 0⟩

set_option maxHeartbeats 2000000 in
set_option maxRecDepth 8192 in
/-- C8 counterexample: with a 100 nm route whose fast-schedule descent needs
208 nm, `calculate_eta_window` raises no configuration error: it returns a
normal result whose cruise distance (−108 nm) and cruise time (−864 s) are
silently negative. -/
theorem c8_counterexample :
    (calculate_eta_window c8perf c8perf (fun _ => 450) 50 30 100).isSome = true ∧
    ((calculate_eta_window c8perf c8perf (fun _ => 450) 50 30
        100).getD default).1.cruiseDistanceNm < 0 ∧
    ((calculate_eta_window c8perf c8perf (fun _ => 450) 50 30
        100).getD default).1.cruiseTimeSeconds < 0 := by
  have h : calculate_eta_window c8perf c8perf (fun _ => 450) 50 30 100 =
      some (⟨-108, -864, 208, 1880, 1016⟩, ⟨-108, -864, 208, 1880, 1016⟩) := by
    norm_num [calculate_eta_window, etaSide, qdiv, descentSummary,
      calculate_descent_profile, calculate_detailed_descent_with_deceleration,
      generate_flight_levels, rangeDown, rangeDownAux, descentLoop,
      afterPointState, mkResPoint, afterDecelState, decelDecision,
      profileTrigger, mkDecelSegment, calculate_deceleration_segment,
      segmentIncrements, c8perf, pround, rhe, Int.even_iff]
    norm_num [Int.fract]
  rw [h]
  norm_num

/-- One candidate speed-schedule parameter set of the RTA search
(the dicts built in `generate_profile_params`, A320.py lines 300-419). -/
structure ProfileParams where
  descentMach : ℚ
  highCas : ℚ
  intermediateCas : Option ℚ
  intermediateFl : Option ℤ
deriving DecidableEq

/-- The cross product `for mach in mach_values: for cas in cas_ranges[mach]:
for (int_cas, int_fl) in int_options`, in source order. -/
def crossProfiles (machCas : List (ℚ × List ℚ))
    (intOpts : List (Option ℚ × Option ℤ)) : List ProfileParams :=
  machCas.flatMap fun mc => mc.2.flatMap fun cas =>
    intOpts.map fun io => ⟨mc.1, cas, io.1, io.2⟩

/-- The five hand-tuned candidate bands of `generate_profile_params`
(A320.py lines 317-402), selected by the relative position of the target RTA
in the ETA window. -/
def bandParams (relativePosition : ℚ) : List ProfileParams :=
  if relativePosition < 2/10 then
    crossProfiles
      [(78/100, [290, 295, 300]), (79/100, [295, 300, 305]),
       (80/100, [300, 305, 310])]
      [(none, none), (some 220, some 50), (some 220, some 50)]
  else if relativePosition < 4/10 then
    crossProfiles
      [(76/100, [275, 280, 285]), (77/100, [280, 285, 290, 295]),
       (78/100, [285, 290, 295]), (79/100, [290, 295, 300])]
      [(none, none), (some 220, some 50), (some 220, some 60)]
  else if relativePosition < 6/10 then
    crossProfiles
      [(75/100, [265, 270, 275, 280]), (76/100, [270, 275, 280]),
       (77/100, [275, 280, 285])]
      [(none, none), (some 220, some 50), (some 220, some 60),
       (some 220, some 80)]
  else if relativePosition < 8/10 then
    crossProfiles
      [(74/100, [250, 255, 260]), (75/100, [255, 260, 265]),
       (76/100, [265, 270, 275])]
      [(some 220, some 50), (some 220, some 60), (some 220, some 80),
       (some 220, some 100)]
  else
    crossProfiles
      [(73/100, [245, 250, 255]), (74/100, [250, 255, 260])]
      [(some 220, some 60), (some 220, some 80), (some 220, some 100),
       (some 220, some 120), (some 220, some 130), (some 220, some 150)]

/-- Embedding of `generate_profile_params` (A320.py lines 300-419): the
relative position `(rta - eta_min) / (eta_max - eta_min)` is computed first
with Python division (ZeroDivisionError when the window is zero, hence the
`qdiv`), then the band's cross product is built and the two always-included
baseline schedules are appended. -/
def generate_profile_params (etaMin etaMax rta : ℚ) : Option (List ProfileParams) :=
  (qdiv (rta - etaMin) (etaMax - etaMin)).map fun relativePosition =>
    bandParams relativePosition ++
      [⟨80/100, 310, none, none⟩, ⟨73/100, 245, some 220, some 150⟩]

/-- One evaluated search candidate kept by `find_profile_for_rta`: its
parameters, its total trip ETA and the absolute difference from the target. -/
structure MatchCandidate where
  params : ProfileParams
  eta : ℚ
  diff : ℚ
deriving DecidableEq

/-- The candidate record appended at A320.py lines 269-279. -/
def candidateOf (rta : ℚ) (p : ProfileParams) (eta : ℚ) : MatchCandidate :=
  ⟨p, eta, |eta - rta|⟩

/-- The sort key of `suitable_profiles.sort(key=lambda x: x["diff"])`. -/
def diffLE (a b : MatchCandidate) : Prop := a.diff ≤ b.diff

instance : DecidableRel diffLE := fun a b =>
  inferInstanceAs (Decidable (a.diff ≤ b.diff))

instance : IsTotal MatchCandidate diffLE := ⟨fun a b => le_total a.diff b.diff⟩

instance : IsTrans MatchCandidate diffLE := ⟨fun _ _ _ => le_trans⟩

/-- Embedding of `find_profile_for_rta` (A320.py lines 167-296) downstream of
the baseline window: `etaMin`/`etaMax` are the window's total trip times,
`evalEta` is the per-candidate trip evaluation (`None` models a swallowed
per-candidate exception).  Outside the feasibility band the function returns
an empty list; otherwise candidates within tolerance are collected in
generation order, sorted ascending by difference, and truncated to
`maxProfiles`. -/
def find_profile_for_rta (etaMin etaMax : ℚ) (evalEta : ProfileParams → Option ℚ)
    (rta tolerance : ℚ) (maxProfiles : ℕ) : Option (List MatchCandidate) :=
  if rta < etaMin - tolerance then some []
  else if etaMax + tolerance < rta then some []
  else
    (generate_profile_params etaMin etaMax rta).map fun ps =>
      (((ps.filterMap fun p =>
          match evalEta p with
          | none => none
          | some eta =>
              if |eta - rta| ≤ tolerance then some (candidateOf rta p eta)
              else none).insertionSort diffLE).take maxProfiles)

/-- C7: For every target RTA strictly outside the feasibility band
[ETAmin − tolerance, ETAmax + tolerance], `find_profile_for_rta` returns the
empty list, for every candidate evaluator — i.e. without evaluating any
candidate. -/
theorem c7_infeasible_rta_empty (etaMin etaMax : ℚ)
    (evalEta : ProfileParams → Option ℚ) (rta tolerance : ℚ) (maxProfiles : ℕ)
    (h : rta < etaMin - tolerance ∨ etaMax + tolerance < rta) :
    find_profile_for_rta etaMin etaMax evalEta rta tolerance maxProfiles =
      some [] := by
  unfold find_profile_for_rta
  split_ifs with h1 h2
  · rfl
  · rfl
  · rcases h with h | h
    · exact absurd h h1
    · exact absurd h h2

theorem c7_witness :
    find_profile_for_rta 100 200 (fun _ => some 0) 50 10 5 = some [] :=
  c7_infeasible_rta_empty 100 200 (fun _ => some 0) 50 10 5
    (Or.inl (by norm_num))

/-- C10: When the baseline window is degenerate (ETAmin = ETAmax) and the
target RTA passes the feasibility check, the candidate-generation step divides
`(rta - eta_min)` by the zero window `(eta_max - eta_min)`, so the call fails
with a division-by-zero error (modelled as `none`) instead of returning a
candidate list. -/
theorem c10_zero_window_division_error (etaMin etaMax : ℚ)
    (evalEta : ProfileParams → Option ℚ) (rta tolerance : ℚ) (maxProfiles : ℕ)
    (heq : etaMin = etaMax) (h1 : ¬rta < etaMin - tolerance)
    (h2 : ¬etaMax + tolerance < rta) :
    find_profile_for_rta etaMin etaMax evalEta rta tolerance maxProfiles =
      none := by
  unfold find_profile_for_rta
  rw [if_neg h1, if_neg h2]
  unfold generate_profile_params qdiv
  subst heq
  rw [if_pos (by ring)]
  rfl

theorem c10_witness :
    find_profile_for_rta 100 100 (fun _ => some 100) 100 10 5 = none :=
  c10_zero_window_division_error 100 100 (fun _ => some 100) 100 10 5 rfl
    (by norm_num) (by norm_num)

/-- C6: When the target RTA passes the feasibility check and
`find_profile_for_rta` returns a list, every element's stored difference is
exactly |total ETA − rta| and is within tolerance, the list is sorted in
ascending order of that difference, and its length is at most `maxProfiles`. -/
theorem c6_rta_search_postcondition (etaMin etaMax : ℚ)
    (evalEta : ProfileParams → Option ℚ) (rta tolerance : ℚ) (maxProfiles : ℕ)
    (l : List MatchCandidate)
    (h1 : ¬rta < etaMin - tolerance) (h2 : ¬etaMax + tolerance < rta)
    (hres : find_profile_for_rta etaMin etaMax evalEta rta tolerance maxProfiles =
      some l) :
    (∀ c ∈ l, c.diff = |c.eta - rta| ∧ c.diff ≤ tolerance) ∧
    List.Sorted diffLE l ∧ l.length ≤ maxProfiles := by
  unfold find_profile_for_rta at hres
  rw [if_neg h1, if_neg h2] at hres
  cases hgen : generate_profile_params etaMin etaMax rta with
  | none => rw [hgen] at hres; cases hres
  | some ps =>
      rw [hgen] at hres
      rw [Option.map_some'] at hres
      cases hres
      refine ⟨?_, ?_, ?_⟩
      · intro c hc
        have hc2 := List.mem_of_mem_take hc
        have hc3 := (List.perm_insertionSort diffLE _).mem_iff.mp hc2
        obtain ⟨p, hp, hfp⟩ := List.mem_filterMap.mp hc3
        cases hev : evalEta p with
        | none => rw [hev] at hfp; exact absurd hfp (by simp)
        | some eta =>
            rw [hev] at hfp
            dsimp only at hfp
            split_ifs at hfp with htol
            cases hfp
            exact ⟨rfl, htol⟩
      · exact List.Pairwise.sublist (List.take_sublist _ _)
          (List.sorted_insertionSort diffLE _)
      · rw [List.length_take]
        exact min_le_left _ _

/-- The candidate evaluator used for the C6 witness: only schedules with high
CAS 310 evaluate (to an exact-hit ETA of 150 s); all others fail and are
swallowed. -/
def c6eval (p : ProfileParams) : Option ℚ :=
  if p.highCas = 310 then some 150 else none

theorem c6_witness :
    (∀ c ∈ [(⟨⟨80/100, 310, none, none⟩, 150, 0⟩ : MatchCandidate)],
      c.diff = |c.eta - 150| ∧ c.diff ≤ 10) ∧
    List.Sorted diffLE [(⟨⟨80/100, 310, none, none⟩, 150, 0⟩ : MatchCandidate)] ∧
    ([(⟨⟨80/100, 310, none, none⟩, 150, 0⟩ : MatchCandidate)]).length ≤ 5 := by
  have h : find_profile_for_rta 100 200 c6eval 150 10 5 =
      some [⟨⟨80/100, 310, none, none⟩, 150, 0⟩] := by
    norm_num [find_profile_for_rta, generate_profile_params, qdiv, bandParams,
      crossProfiles, c6eval, candidateOf, List.insertionSort,
      List.orderedInsert, List.filterMap_cons, abs]
  exact c6_rta_search_postcondition 100 200 c6eval 150 10 5 _
    (by norm_num) (by norm_num) h
